import Mathlib

/-!
Verification development for the docker-backup tool (Go sources: the backup
command file and restore.go).  The Go code is shallowly embedded: pure string
manipulation from the Go standard library (`strings.Contains`,
`strings.HasSuffix`, `strings.Split`, `strings.Replace`, slicing) is modelled
over `List Char`; `encoding/json` marshalling of the `Backup` record is
modelled as a map into a JSON value tree together with a pretty-printer
mirroring `json.MarshalIndent(b, "", "  ")`; tar archives are lists of
header/payload entries; every external side effect (docker client calls,
process launch) is represented by the argument record the code passes to it.
Go strings are treated at character granularity (container names and IDs are
ASCII, where bytes and characters coincide).
-/

namespace DockerBackup

/-! ## Go string primitives -/

/-- Whether the character list `s` starts with `pat`
(Go `strings.HasPrefix` over runes, used to build the other primitives). -/
def strStarts : List Char → List Char → Bool
  | [], _ => true
  | _ :: _, [] => false
  | p :: ps, c :: cs => p == c && strStarts ps cs

/-- Whether `s` contains `sub` as a contiguous sublist; embeds Go
`strings.Contains(s, sub)`. -/
def containsSub : List Char → List Char → Bool
  | [], sub => sub.isEmpty
  | s@(_ :: rest), sub => strStarts sub s || containsSub rest sub

/-- Go `strings.Contains(s, sub)` on strings. -/
def goContains (s sub : String) : Bool := containsSub s.data sub.data

/-- Go `strings.HasSuffix(s, suffix)`. -/
def goEndsWith (s suffix : String) : Bool :=
  strStarts suffix.data.reverse s.data.reverse

/-- Split a character list at every character satisfying `p`; the separators
are dropped and empty fields are kept, as in Go `strings.Split` with a
one-character separator.  Always returns a non-empty list. -/
def splitOnP (p : Char → Bool) : List Char → List (List Char)
  | [] => [[]]
  | c :: rest =>
    if p c then [] :: splitOnP p rest
    else
      match splitOnP p rest with
      | [] => [[c]]
      | h :: t => (c :: h) :: t

/-- Go `strings.Split(s, sep)` for a one-character separator (the only form
the program uses: it splits on `"/"` and on `" "`). -/
def goSplit (s : String) (sep : Char) : List String :=
  (splitOnP (fun c => c == sep) s.data).map String.mk

/-- Worker for Go `strings.Replace(s, pat, rep, -1)`: scan left to right; on a
match emit `rep` and skip the rest of the matched pattern (the `skip`
counter); non-overlapping, like Go.  The program only calls it with non-empty
patterns (`"%tag"`, `"%list"`, `"/"`). -/
def replAux (pat rep : List Char) : List Char → Nat → List Char
  | [], _ => []
  | _ :: rest, skip + 1 => replAux pat rep rest skip
  | c :: rest, 0 =>
    if !pat.isEmpty && strStarts pat (c :: rest) then
      rep ++ replAux pat rep rest (pat.length - 1)
    else
      c :: replAux pat rep rest 0

/-- Go `strings.Replace(s, pat, rep, -1)` (replace all occurrences). -/
def goReplace (s pat rep : String) : String :=
  String.mk (replAux pat.data rep.data s.data 0)

/-- Go string slicing `s[low:]`: defined only when `low <= len(s)`, out of
range otherwise (a Go panic, modelled as `none`). -/
def goSliceFrom (s : String) (low : Nat) : Option String :=
  if low ≤ s.data.length then some (String.mk (s.data.drop low)) else none

/-- Go string slicing `s[:high]`: defined only when `high <= len(s)`, out of
range otherwise (a Go panic, modelled as `none`). -/
def goSliceTo (s : String) (high : Nat) : Option String :=
  if high ≤ s.data.length then some (String.mk (s.data.take high)) else none

/-! ## JSON values -/

/-- JSON value trees, the codomain of `encoding/json` marshalling. -/
inductive Json where
  | null : Json
  | str : String → Json
  | num : Int → Json
  | bool : Bool → Json
  | arr : List Json → Json
  | obj : List (String × Json) → Json

/-! ## The Backup data model

`Backup` is the repository's sole record (backup file, lines 22-28); its
`Config`, `HostConfig` and `NetworkSettings` fields are pointers to
docker-API structs, modelled as `Option` of structures carrying the
JSON-serialised fields relevant to the program (image reference, command,
environment, labels; binds, network mode, mounts; per-network endpoints).
Go `nil` pointers marshal as JSON `null`. -/

/-- docker `mount.Mount`, the part the program prints (Type/Source/Target). -/
structure Mount where
  mountType : String
  Source : String
  Target : String
deriving DecidableEq

/-- docker `container.Config` (image reference, command, environment,
labels). -/
structure Config where
  Image : String
  Cmd : List String
  Env : List String
  Labels : List (String × String)
deriving DecidableEq

/-- docker `container.HostConfig` (binds, network mode, mounts). -/
structure HostConfig where
  Binds : List String
  NetworkMode : String
  Mounts : List Mount
deriving DecidableEq

/-- docker `network.EndpointSettings` (IP, gateway, aliases). -/
structure EndpointSettings where
  IPAddress : String
  Gateway : String
  Aliases : List String
deriving DecidableEq

/-- docker `types.NetworkSettings`: its `Networks` field maps network names
to endpoint-settings pointers (an association list here; Go map quotient). -/
structure NetworkSettings where
  Networks : List (String × Option EndpointSettings)
deriving DecidableEq

/-- The `Backup` struct (backup file, lines 22-28). -/
structure Backup where
  Name : String
  Config : Option Config
  HostConfig : Option HostConfig
  NetworkSettings : Option NetworkSettings
  Platform : String
deriving DecidableEq

/-! ## Marshalling (`json.MarshalIndent` as a JSON value) -/

/-- Marshal a string slice (JSON array of strings). -/
def marshalStrList (l : List String) : Json := .arr (l.map .str)

/-- Marshal a string-to-string map (JSON object of strings). -/
def marshalLabels (l : List (String × String)) : Json :=
  .obj (l.map (fun kv => (kv.1, .str kv.2)))

/-- Marshal a `nil`-able pointer field: `nil` becomes JSON `null`. -/
def marshalOpt {α : Type} (f : α → Json) : Option α → Json
  | none => .null
  | some a => f a

/-- Marshal one mount definition. -/
def marshalMount (m : Mount) : Json :=
  .obj [("Type", .str m.mountType), ("Source", .str m.Source),
        ("Target", .str m.Target)]

/-- Marshal a container configuration. -/
def marshalConfig (c : Config) : Json :=
  .obj [("Image", .str c.Image), ("Cmd", marshalStrList c.Cmd),
        ("Env", marshalStrList c.Env), ("Labels", marshalLabels c.Labels)]

/-- Marshal a host configuration. -/
def marshalHostConfig (h : HostConfig) : Json :=
  .obj [("Binds", marshalStrList h.Binds), ("NetworkMode", .str h.NetworkMode),
        ("Mounts", .arr (h.Mounts.map marshalMount))]

/-- Marshal one network endpoint. -/
def marshalEndpoint (e : EndpointSettings) : Json :=
  .obj [("IPAddress", .str e.IPAddress), ("Gateway", .str e.Gateway),
        ("Aliases", marshalStrList e.Aliases)]

/-- Marshal the network-name-to-endpoint map. -/
def marshalNetworks (l : List (String × Option EndpointSettings)) : Json :=
  .obj (l.map (fun kv => (kv.1, marshalOpt marshalEndpoint kv.2)))

/-- Marshal the network settings. -/
def marshalNetworkSettings (ns : NetworkSettings) : Json :=
  .obj [("Networks", marshalNetworks ns.Networks)]

/-- Marshal a `Backup` record: a JSON object with keys in field-declaration
order, exactly as `json.MarshalIndent(backup, "", "  ")` produces. -/
def marshalBackup (b : Backup) : Json :=
  .obj [("Name", .str b.Name),
        ("Config", marshalOpt marshalConfig b.Config),
        ("HostConfig", marshalOpt marshalHostConfig b.HostConfig),
        ("NetworkSettings", marshalOpt marshalNetworkSettings b.NetworkSettings),
        ("Platform", .str b.Platform)]

/-! ## Unmarshalling (`json.Unmarshal` into a `Backup`)

`encoding/json` decoding semantics: a missing key and a JSON `null` both
leave the target field at its zero value (empty string, `nil` pointer,
`nil` slice); a shape mismatch is an error (`none`). -/

/-- Last-occurrence key lookup, as `encoding/json` keeps the last duplicate
of a key. -/
def lookupLast : List (String × Json) → String → Option Json
  | [], _ => none
  | (k, v) :: rest, key =>
    match lookupLast rest key with
    | some r => some r
    | none => if k == key then some v else none

/-- Fetch an object field; a missing key behaves like JSON `null` (both leave
the Go target at its zero value). -/
def getField (fields : List (String × Json)) (key : String) : Json :=
  (lookupLast fields key).getD .null

/-- Decode a JSON value into a Go `string` (null keeps the zero value `""`). -/
def decodeString : Json → Option String
  | .str s => some s
  | .null => some ""
  | _ => none

/-- Decode the elements of a JSON array into a `[]string`. -/
def decodeStrItems : List Json → Option (List String)
  | [] => some []
  | j :: rest =>
    (decodeString j).bind fun s => (decodeStrItems rest).map (s :: ·)

/-- Decode a JSON value into a `[]string` (null gives the nil slice). -/
def decodeStrList : Json → Option (List String)
  | .null => some []
  | .arr items => decodeStrItems items
  | _ => none

/-- Decode the fields of a JSON object into a `map[string]string`. -/
def decodeLabelItems : List (String × Json) → Option (List (String × String))
  | [] => some []
  | (k, v) :: rest =>
    (decodeString v).bind fun s =>
      (decodeLabelItems rest).map ((k, s) :: ·)

/-- Decode a JSON value into a `map[string]string` (null gives the nil map). -/
def decodeLabels : Json → Option (List (String × String))
  | .null => some []
  | .obj fields => decodeLabelItems fields
  | _ => none

/-- Decode a JSON value into one `mount.Mount` struct. -/
def decodeMount : Json → Option Mount
  | .null => some ⟨"", "", ""⟩
  | .obj f => do
    let t ← decodeString (getField f "Type")
    let src ← decodeString (getField f "Source")
    let tgt ← decodeString (getField f "Target")
    some ⟨t, src, tgt⟩
  | _ => none

/-- Decode the elements of a JSON array into a `[]mount.Mount`. -/
def decodeMountItems : List Json → Option (List Mount)
  | [] => some []
  | j :: rest =>
    (decodeMount j).bind fun m => (decodeMountItems rest).map (m :: ·)

/-- Decode a JSON value into a `[]mount.Mount` (null gives the nil slice). -/
def decodeMounts : Json → Option (List Mount)
  | .null => some []
  | .arr items => decodeMountItems items
  | _ => none

/-- Decode a JSON value into a `*container.Config` (null gives `nil`). -/
def decodeConfig : Json → Option (Option Config)
  | .null => some none
  | .obj f => do
    let img ← decodeString (getField f "Image")
    let cmd ← decodeStrList (getField f "Cmd")
    let env ← decodeStrList (getField f "Env")
    let lbl ← decodeLabels (getField f "Labels")
    some (some ⟨img, cmd, env, lbl⟩)
  | _ => none

/-- Decode a JSON value into a `*container.HostConfig` (null gives `nil`). -/
def decodeHostConfig : Json → Option (Option HostConfig)
  | .null => some none
  | .obj f => do
    let binds ← decodeStrList (getField f "Binds")
    let nm ← decodeString (getField f "NetworkMode")
    let mounts ← decodeMounts (getField f "Mounts")
    some (some ⟨binds, nm, mounts⟩)
  | _ => none

/-- Decode a JSON value into a `*network.EndpointSettings` (null gives
`nil`). -/
def decodeEndpoint : Json → Option (Option EndpointSettings)
  | .null => some none
  | .obj f => do
    let ip ← decodeString (getField f "IPAddress")
    let gw ← decodeString (getField f "Gateway")
    let al ← decodeStrList (getField f "Aliases")
    some (some ⟨ip, gw, al⟩)
  | _ => none

/-- Decode the fields of a JSON object into the
`map[string]*network.EndpointSettings` of a `NetworkSettings`. -/
def decodeNetworkItems :
    List (String × Json) → Option (List (String × Option EndpointSettings))
  | [] => some []
  | (k, v) :: rest =>
    (decodeEndpoint v).bind fun e =>
      (decodeNetworkItems rest).map ((k, e) :: ·)

/-- Decode a JSON value into the `Networks` map (null gives the nil map). -/
def decodeNetworks : Json → Option (List (String × Option EndpointSettings))
  | .null => some []
  | .obj fields => decodeNetworkItems fields
  | _ => none

/-- Decode a JSON value into a `*types.NetworkSettings` (null gives `nil`). -/
def decodeNetworkSettings : Json → Option (Option NetworkSettings)
  | .null => some none
  | .obj f => do
    let nets ← decodeNetworks (getField f "Networks")
    some (some ⟨nets⟩)
  | _ => none

/-- Decode a JSON value into a `Backup` record, the shape
`json.Unmarshal(b, &backup)` accepts: an object (fields by key, missing or
null fields keep their zero values) or `null` (whole record stays zero);
anything else is a decoding error. -/
def decodeBackup : Json → Option Backup
  | .null => some ⟨"", none, none, none, ""⟩
  | .obj f => do
    let name ← decodeString (getField f "Name")
    let cfg ← decodeConfig (getField f "Config")
    let hc ← decodeHostConfig (getField f "HostConfig")
    let ns ← decodeNetworkSettings (getField f "NetworkSettings")
    let plat ← decodeString (getField f "Platform")
    some ⟨name, cfg, hc, ns, plat⟩
  | _ => none

/-! ## The pretty-printed byte rendering of `json.MarshalIndent(b, "", "  ")`

Used for the byte length recorded in the tar header (`Size: int64(len(b))`).
Two-space indentation, keys in field order, `null` for nil pointers. -/

/-- Indentation prefix at nesting depth `d` (two spaces per level). -/
def pad (d : Nat) : String := String.mk (List.replicate (2 * d) ' ')

/-- JSON string-literal escaping for the characters the encoder must escape. -/
def escChar (c : Char) : List Char :=
  if c = '"' then ['\\', '"']
  else if c = '\\' then ['\\', '\\']
  else if c = '\n' then ['\\', 'n']
  else if c = '\t' then ['\\', 't']
  else [c]

/-- Render a JSON string literal. -/
def jstr (s : String) : String :=
  "\"" ++ String.mk (s.data.foldr (fun c acc => escChar c ++ acc) []) ++ "\""

/-- Render a string array at depth `d`. -/
def renderStrArr (d : Nat) (l : List String) : String :=
  match l with
  | [] => "[]"
  | _ =>
    "[\n" ++ String.intercalate ",\n" (l.map (fun s => pad (d + 1) ++ jstr s))
      ++ "\n" ++ pad d ++ "]"

/-- Render a string-to-string object at depth `d`. -/
def renderLabels (d : Nat) (l : List (String × String)) : String :=
  match l with
  | [] => "\x7b\x7d"
  | _ =>
    "\x7b\n" ++
      String.intercalate ",\n"
        (l.map (fun kv => pad (d + 1) ++ jstr kv.1 ++ ": " ++ jstr kv.2))
      ++ "\n" ++ pad d ++ "\x7d"

/-- Render one mount object at depth `d`. -/
def renderMount (d : Nat) (m : Mount) : String :=
  "\x7b\n" ++
    pad (d + 1) ++ "\"Type\": " ++ jstr m.mountType ++ ",\n" ++
    pad (d + 1) ++ "\"Source\": " ++ jstr m.Source ++ ",\n" ++
    pad (d + 1) ++ "\"Target\": " ++ jstr m.Target ++ "\n" ++
    pad d ++ "\x7d"

/-- Render a mount array at depth `d`. -/
def renderMounts (d : Nat) (l : List Mount) : String :=
  match l with
  | [] => "[]"
  | _ =>
    "[\n" ++
      String.intercalate ",\n" (l.map (fun m => pad (d + 1) ++ renderMount (d + 1) m))
      ++ "\n" ++ pad d ++ "]"

/-- Render a `*container.Config` at depth `d`. -/
def renderConfig (d : Nat) : Option Config → String
  | none => "null"
  | some c =>
    "\x7b\n" ++
      pad (d + 1) ++ "\"Image\": " ++ jstr c.Image ++ ",\n" ++
      pad (d + 1) ++ "\"Cmd\": " ++ renderStrArr (d + 1) c.Cmd ++ ",\n" ++
      pad (d + 1) ++ "\"Env\": " ++ renderStrArr (d + 1) c.Env ++ ",\n" ++
      pad (d + 1) ++ "\"Labels\": " ++ renderLabels (d + 1) c.Labels ++ "\n" ++
      pad d ++ "\x7d"

/-- Render a `*container.HostConfig` at depth `d`. -/
def renderHostConfig (d : Nat) : Option HostConfig → String
  | none => "null"
  | some h =>
    "\x7b\n" ++
      pad (d + 1) ++ "\"Binds\": " ++ renderStrArr (d + 1) h.Binds ++ ",\n" ++
      pad (d + 1) ++ "\"NetworkMode\": " ++ jstr h.NetworkMode ++ ",\n" ++
      pad (d + 1) ++ "\"Mounts\": " ++ renderMounts (d + 1) h.Mounts ++ "\n" ++
      pad d ++ "\x7d"

/-- Render a `*network.EndpointSettings` at depth `d`. -/
def renderEndpoint (d : Nat) : Option EndpointSettings → String
  | none => "null"
  | some e =>
    "\x7b\n" ++
      pad (d + 1) ++ "\"IPAddress\": " ++ jstr e.IPAddress ++ ",\n" ++
      pad (d + 1) ++ "\"Gateway\": " ++ jstr e.Gateway ++ ",\n" ++
      pad (d + 1) ++ "\"Aliases\": " ++ renderStrArr (d + 1) e.Aliases ++ "\n" ++
      pad d ++ "\x7d"

/-- Render the `Networks` map at depth `d`. -/
def renderNetworks (d : Nat) (l : List (String × Option EndpointSettings)) :
    String :=
  match l with
  | [] => "\x7b\x7d"
  | _ =>
    "\x7b\n" ++
      String.intercalate ",\n"
        (l.map (fun kv => pad (d + 1) ++ jstr kv.1 ++ ": " ++ renderEndpoint (d + 1) kv.2))
      ++ "\n" ++ pad d ++ "\x7d"

/-- Render a `*types.NetworkSettings` at depth `d`. -/
def renderNetworkSettings (d : Nat) : Option NetworkSettings → String
  | none => "null"
  | some ns =>
    "\x7b\n" ++
      pad (d + 1) ++ "\"Networks\": " ++ renderNetworks (d + 1) ns.Networks ++ "\n" ++
      pad d ++ "\x7d"

/-- The byte text `json.MarshalIndent(backup, "", "  ")` produces for a
`Backup` record: top-level object, keys in field-declaration order,
two-space indentation. -/
def marshalIndent (b : Backup) : String :=
  "\x7b\n" ++
    "  \"Name\": " ++ jstr b.Name ++ ",\n" ++
    "  \"Config\": " ++ renderConfig 1 b.Config ++ ",\n" ++
    "  \"HostConfig\": " ++ renderHostConfig 1 b.HostConfig ++ ",\n" ++
    "  \"NetworkSettings\": " ++ renderNetworkSettings 1 b.NetworkSettings ++ ",\n" ++
    "  \"Platform\": " ++ jstr b.Platform ++ "\n" ++
  "\x7d"

/-! ## Tar artifacts

A tar archive is a list of entries; each entry is the header the writer
emitted plus the entry's byte payload.  The payload bytes are always a JSON
document in this program, so the model carries them as the parsed `Json`
value; their byte length is `(marshalIndent b).utf8ByteSize`, recorded
separately in the header exactly as `Size: int64(len(b))` records it. -/

/-- The tar header fields `backupTar` sets (backup file, lines 69-76).
Timestamps are abstract instants (`time.Now()` within one invocation is
modelled as the single instant `now`). -/
structure TarHeader where
  Name : String
  Size : Nat
  ModTime : Nat
  AccessTime : Nat
  ChangeTime : Nat
  Mode : Nat
deriving DecidableEq

/-- One tar entry: header plus payload (the payload bytes carried as their
parsed JSON value). -/
structure TarEntry where
  header : TarHeader
  content : Json

/-- `backupTar(filename, backup)` (backup file, lines 56-88): marshal the
record, create `filename + ".tar"`, write a single header named
`container.json` with mode 0600, the payload's byte length as size and the
current time as all three timestamps, then write the payload. -/
def backupTar (filename : String) (backup : Backup) (now : Nat) :
    String × List TarEntry :=
  (filename ++ ".tar",
   [⟨⟨"container.json", (marshalIndent backup).utf8ByteSize,
      now, now, now, 0o600⟩,
     marshalBackup backup⟩])

/-- The scan loop of `restoreTar` (restore.go, lines 48-64): walk the entries
in order; whenever one is named `container.json`, overwrite the buffer with
its full contents; other entries leave the buffer alone. -/
def scanTar : List TarEntry → Option Json → Option Json
  | [], buf => buf
  | e :: rest, buf =>
    if e.header.Name == "container.json" then scanTar rest (some e.content)
    else scanTar rest buf

/-- The buffer `restoreTar` hands to `json.Unmarshal` after the scan
(`none` models the nil byte slice when no entry was named
`container.json`). -/
def restoreTarPayload (entries : List TarEntry) : Option Json :=
  scanTar entries none

/-- `restoreTar` up to the decoded record (restore.go, lines 39-70):
deserialising the nil buffer fails, so an archive without a
`container.json` entry yields `none`. -/
def restoreTarBackup (entries : List TarEntry) : Option Backup :=
  (restoreTarPayload entries).bind decodeBackup

/-! ## Image-tag resolution -/

/-- One entry of the docker image list: identifier and repository tags. -/
structure ImageSummary where
  ID : String
  RepoTags : List String
deriving DecidableEq

/-- The image-list loop of `getFullImageName` (backup file, lines 103-118):
skip entries whose ID is not contained in the image name or that have no
tags; on the first remaining entry return the first tag that contains the
image name, or the entry's first tag if none does; if no entry remains,
return the name unchanged. -/
def findImageTag (imageName : String) : List ImageSummary → String
  | [] => imageName
  | img :: rest =>
    if !(goContains imageName img.ID) || img.RepoTags.isEmpty then
      findImageTag imageName rest
    else
      match img.RepoTags.find? (fun tag => goContains tag imageName) with
      | some tag => tag
      | none => img.RepoTags.headD imageName

/-- `getFullImageName(imageName)` (backup file, lines 90-122).  The docker
`ImageList` call is an input: either the image list or the call's error,
which the function passes through (the caller aborts on it). -/
def getFullImageName (imageName : String)
    (imageList : Except String (List ImageSummary)) : Except String String :=
  if goContains imageName ":" then .ok imageName
  else
    match imageList with
    | .error e => .error e
    | .ok images => .ok (findImageTag imageName images)

/-! ## Restore: dispatch and container creation -/

/-- The argument `createContainer` passes as `networkConfig`
(`*network.NetworkingConfig`). -/
structure NetworkingConfig where
  EndpointsConfig : List (String × Option EndpointSettings)
deriving DecidableEq

/-- The argument record of the `cli.ContainerCreate` call (restore.go,
lines 129-136): config, host config, network config, platform override
(always `nil`), container name. -/
structure CreateCall where
  config : Option Config
  hostConfig : Option HostConfig
  networkConfig : Option NetworkingConfig
  platform : Option String
  name : String
deriving DecidableEq

/-- `createContainer(backup)` up to the `ContainerCreate` call (restore.go,
lines 105-136): the name is the last `/`-separated segment of
`backup.Name`; the endpoints map is copied entry by entry from
`NetworkSettings.Networks` when `NetworkSettings` is non-nil, and the
network config is `nil` otherwise; config and host config pass through
unchanged; the platform override is `nil`. -/
def createContainerCall (backup : Backup) : CreateCall :=
  let nameparts := goSplit backup.Name '/'
  let name := nameparts.getLastD ""
  let networkConfig : Option NetworkingConfig :=
    backup.NetworkSettings.map (fun ns => ⟨ns.Networks⟩)
  ⟨backup.Config, backup.HostConfig, networkConfig, none, name⟩

/-- `restore(filename)` after the file bytes are parsed (restore.go, lines
83-103): decode the record and derive the creation call; a decoding error
aborts. -/
def restoreJson (j : Json) : Option CreateCall :=
  (decodeBackup j).map createContainerCall

/-- Where the restore entry point sends its argument. -/
inductive RestoreDispatch where
  | jsonFile (path : String)
  | tarFile (path : String)
  | unknownFormat
deriving DecidableEq

/-- The extension dispatch of `restoreCmd.RunE` (restore.go, lines 28-34):
`.json` suffix goes to `restore`, else `.tar` suffix goes to `restoreTar`,
else the unknown-file-type error is returned before any file is opened. -/
def restoreCmdDispatch (path : String) : RestoreDispatch :=
  if goEndsWith path ".json" then .jsonFile path
  else if goEndsWith path ".tar" then .tarFile path
  else .unknownFormat

/-! ## Backup command: filename, launch hook, display, batch mode -/

/-- The artifact filename stem (backup file, lines 146-147):
`sanitize.Path(fmt.Sprintf("%s-%s", image, ID))` followed by
`strings.Replace(filename, "/", "_", -1)`.  `sanitize.Path` is the external
kennygrant/sanitize library, taken as an arbitrary function. -/
def backupFilename (sanitizePath : String → String)
    (image containerID : String) : String :=
  goReplace (sanitizePath (image ++ "-" ++ containerID)) "/" "_"

/-- The substituted launch command line (backup file, lines 183-184):
`%tag` replaced by the stem, then `%list` by the filelist name. -/
def launchLine (optLaunch filename : String) : String :=
  goReplace (goReplace optLaunch "%tag" filename)
    "%list" (filename ++ ".backup.files")

/-- `strings.Split(ol, " ")` (backup file, line 189): the argument vector,
split on single space characters. -/
def launchArgv (optLaunch filename : String) : List String :=
  goSplit (launchLine optLaunch filename) ' '

/-- The `exec.Command(l[0], l[1:]...)` invocation (backup file, line 190):
command name and argument list. -/
def launchInvocation (optLaunch filename : String) : String × List String :=
  ((launchArgv optLaunch filename).headD "",
   (launchArgv optLaunch filename).tail)

/-- The tail of `backup` after a successful plain-JSON write (backup file,
lines 182-194): with no launch template the operation succeeds; otherwise
the substituted command runs and its result (`cmd.Run()`) is returned as
the backup's result. -/
def backupHookResult (optLaunch filename : String)
    (run : String × List String → Except String Unit) : Except String Unit :=
  if optLaunch == "" then .ok () else run (launchInvocation optLaunch filename)

/-- The splitting the claim describes (`split on whitespace into an argument
vector`), stated from the claim's words for comparison with
`launchArgv`: fields separated by any whitespace, no empty arguments. -/
def claimWhitespaceArgv (line : String) : List String :=
  ((splitOnP (fun c => c == ' ' || c == '\t' || c == '\n' || c == '\r')
      line.data).map String.mk).filter (fun s => !(s == ""))

/-- How a Go function invocation ends: a normal return value, a returned
error, or a panic. -/
inductive GoOutcome where
  | ok : GoOutcome
  | errReturn : String → GoOutcome
  | panicked : String → GoOutcome
deriving DecidableEq

/-- The loop of `backupAll` (backup file, lines 205-210): back up each listed
container in order, returning the first failure immediately. -/
def backupAllLoop (backupOne : String → Except String Unit) :
    List String → Except String Unit
  | [] => .ok ()
  | c :: rest =>
    match backupOne c with
    | .error e => .error e
    | .ok _ => backupAllLoop backupOne rest

/-- `backupAll()` (backup file, lines 197-213): a `ContainerList` failure is
passed to `panic(err)`; otherwise the loop result is returned. -/
def backupAll (listResult : Except String (List String))
    (backupOne : String → Except String Unit) : GoOutcome :=
  match listResult with
  | .error e => .panicked e
  | .ok containers =>
    match backupAllLoop backupOne containers with
    | .ok _ => .ok
    | .error e => .errReturn e

/-- The display step of `backup` (backup file, line 129):
`conf.Name[1:]` and `conf.ID[:12]`; out-of-range slicing is a panic
(`none`). -/
def backupDisplay (name id : String) : Option (String × String) :=
  (goSliceFrom name 1).bind fun n =>
    (goSliceTo id 12).map fun i => (n, i)

/-- The display step of `startContainer` (restore.go, line 159): `id[:12]`. -/
def startContainerDisplay (id : String) : Option String :=
  goSliceTo id 12

/-! ## Sample values used by concrete instances -/

/-- The end-to-end scenario record of the specification:
`Backup{Name:"/web-1", Config:{Image:"nginx"}, HostConfig:{},
NetworkSettings:nil}`. -/
def webBackup : Backup :=
  ⟨"/web-1", some ⟨"nginx", [], [], []⟩, some ⟨[], "", []⟩, none, ""⟩

/-- The creation call the scenario must produce: name `web-1`, the config and
host config passed through, no network configuration. -/
def webCall : CreateCall :=
  ⟨some ⟨"nginx", [], [], []⟩, some ⟨[], "", []⟩, none, none, "web-1"⟩

/-- A tar header named `container.json` with zeroed metadata, for concrete
duplicate-entry archives. -/
def cjHeader : TarHeader := ⟨"container.json", 0, 0, 0, 0, 0⟩

/-! ## Helper lemmas: decode inverts marshal, field by field -/

theorem decodeStrItems_map (l : List String) :
    decodeStrItems (l.map Json.str) = some l := by
  induction l with
  | nil => rfl
  | cons s rest ih => simp [decodeStrItems, decodeString, ih]

theorem decodeStrList_marshal (l : List String) :
    decodeStrList (marshalStrList l) = some l := by
  simp [marshalStrList, decodeStrList, decodeStrItems_map]

theorem decodeLabelItems_map (l : List (String × String)) :
    decodeLabelItems (l.map (fun kv => (kv.1, Json.str kv.2))) = some l := by
  induction l with
  | nil => rfl
  | cons kv rest ih => simp [decodeLabelItems, decodeString, ih]

theorem decodeLabels_marshal (l : List (String × String)) :
    decodeLabels (marshalLabels l) = some l := by
  simp [marshalLabels, decodeLabels, decodeLabelItems_map]

theorem decodeMount_marshal (m : Mount) :
    decodeMount (marshalMount m) = some m := rfl

theorem decodeMountItems_map (l : List Mount) :
    decodeMountItems (l.map marshalMount) = some l := by
  induction l with
  | nil => rfl
  | cons m rest ih => simp [decodeMountItems, decodeMount_marshal, ih]

theorem decodeMounts_marshal (l : List Mount) :
    decodeMounts (.arr (l.map marshalMount)) = some l := by
  simp [decodeMounts, decodeMountItems_map]

theorem decodeConfig_marshal (oc : Option Config) :
    decodeConfig (marshalOpt marshalConfig oc) = some oc := by
  cases oc with
  | none => rfl
  | some c =>
    simp [marshalOpt, marshalConfig, decodeConfig, getField, lookupLast,
      decodeString, decodeStrList_marshal, decodeLabels_marshal]

theorem decodeHostConfig_marshal (oh : Option HostConfig) :
    decodeHostConfig (marshalOpt marshalHostConfig oh) = some oh := by
  cases oh with
  | none => rfl
  | some h =>
    simp [marshalOpt, marshalHostConfig, decodeHostConfig, getField,
      lookupLast, decodeString, decodeStrList_marshal, decodeMounts_marshal]

theorem decodeEndpoint_marshal (oe : Option EndpointSettings) :
    decodeEndpoint (marshalOpt marshalEndpoint oe) = some oe := by
  cases oe with
  | none => rfl
  | some e =>
    simp [marshalOpt, marshalEndpoint, decodeEndpoint, getField, lookupLast,
      decodeString, decodeStrList_marshal]

theorem decodeNetworkItems_map (l : List (String × Option EndpointSettings)) :
    decodeNetworkItems (l.map (fun kv => (kv.1, marshalOpt marshalEndpoint kv.2)))
      = some l := by
  induction l with
  | nil => rfl
  | cons kv rest ih => simp [decodeNetworkItems, decodeEndpoint_marshal, ih]

theorem decodeNetworkSettings_marshal (ons : Option NetworkSettings) :
    decodeNetworkSettings (marshalOpt marshalNetworkSettings ons) = some ons := by
  cases ons with
  | none => rfl
  | some ns =>
    show decodeNetworkSettings (marshalNetworkSettings ns) = some (some ns)
    simp [marshalNetworkSettings, decodeNetworkSettings, getField,
      lookupLast, decodeNetworks, marshalNetworks, decodeNetworkItems_map]

theorem decodeBackup_marshal (b : Backup) :
    decodeBackup (marshalBackup b) = some b := by
  simp [marshalBackup, decodeBackup, getField, lookupLast, decodeString,
    decodeConfig_marshal, decodeHostConfig_marshal,
    decodeNetworkSettings_marshal]

/-! ## Helper lemmas: tar scanning, replacement, batch loop -/

theorem scanTar_eq (entries : List TarEntry) (buf : Option Json) :
    scanTar entries buf =
      match entries.reverse.find?
          (fun e => e.header.Name == "container.json") with
      | some e => some e.content
      | none => buf := by
  induction entries generalizing buf with
  | nil => rfl
  | cons e rest ih =>
    by_cases h : e.header.Name = "container.json"
    · simp only [scanTar, h, beq_self_eq_true, if_true, ih, List.reverse_cons,
        List.find?_append]
      cases hf : rest.reverse.find? (fun e => e.header.Name == "container.json") <;>
        simp [hf, List.find?, h]
    · have hb : (e.header.Name == "container.json") = false := by
        simp [h]
      simp only [scanTar, hb, Bool.false_eq_true, if_false, ih,
        List.reverse_cons, List.find?_append]
      cases hf : rest.reverse.find? (fun e => e.header.Name == "container.json") <;>
        simp [hf, List.find?, hb]

theorem replAux_no_slash (s : List Char) (k : Nat) :
    '/' ∉ replAux ['/'] ['_'] s k := by
  induction s generalizing k with
  | nil =>
    cases k <;> simp [replAux]
  | cons c rest ih =>
    cases k with
    | succ k => simpa [replAux] using ih k
    | zero =>
      by_cases h : ('/' : Char) = c
      · subst h
        simpa [replAux, strStarts] using ih 0
      · have hb : (('/' : Char) == c) = false := by simp [h]
        simp only [replAux, strStarts, hb, List.isEmpty_nil]
        simp only [Bool.and_false, Bool.false_and, Bool.not_true,
          Bool.and_true, Bool.true_and, if_false, Bool.false_eq_true,
          List.mem_cons]
        push_neg
        exact ⟨h, ih 0⟩

theorem backupAllLoop_append (backupOne : String → Except String Unit)
    (pre rest : List String) (h : ∀ c ∈ pre, backupOne c = .ok ()) :
    backupAllLoop backupOne (pre ++ rest) = backupAllLoop backupOne rest := by
  induction pre with
  | nil => rfl
  | cons c tail ih =>
    have hc : backupOne c = .ok () := h c (List.mem_cons_self c tail)
    simp only [List.cons_append, backupAllLoop, hc]
    exact ih (fun x hx => h x (List.mem_cons_of_mem c hx))

theorem findImageTag_skip (imageName : String) (pre rest : List ImageSummary)
    (h : ∀ i ∈ pre, goContains imageName i.ID = false ∨ i.RepoTags = []) :
    findImageTag imageName (pre ++ rest) = findImageTag imageName rest := by
  induction pre with
  | nil => rfl
  | cons img tail ih =>
    have hcond : (!(goContains imageName img.ID) || img.RepoTags.isEmpty) = true := by
      rcases h img (List.mem_cons_self img tail) with hc | hc <;> simp [hc]
    simp only [List.cons_append, findImageTag, hcond, if_true]
    exact ih (fun x hx => h x (List.mem_cons_of_mem img hx))

/-! ## Claim theorems -/

/-- Claim C1: deserialising the serialisation of any `Backup` record yields
the record back field-for-field, both via the plain-JSON encoding
(`json.MarshalIndent` in `backup` then `json.Unmarshal` in `restore`) and
via the tar encoding (`backupTar` then `restoreTar`). -/
theorem backup_serialization_roundtrip (b : Backup) (filename : String)
    (now : Nat) :
    decodeBackup (marshalBackup b) = some b ∧
    restoreTarBackup (backupTar filename b now).2 = some b := by
  refine ⟨decodeBackup_marshal b, ?_⟩
  simp [backupTar, restoreTarBackup, restoreTarPayload, scanTar,
    decodeBackup_marshal]

/-- Claim C2: `getFullImageName` returns the input unchanged when it contains
the tag separator `:`; otherwise, when the image list is `pre ++ e :: post`
with every entry of `pre` failing the matching guard (its identifier not
contained in the reference, or no tags) and `e` passing it, the result is
the first of `e`'s RepoTags textually containing the reference, falling back
to `e`'s first tag when none does; and when every entry fails the guard the
input is returned unchanged. -/
theorem getFullImageName_resolution (imageName : String)
    (images pre post : List ImageSummary) (e : ImageSummary) :
    (goContains imageName ":" = true →
      ∀ l, getFullImageName imageName l = .ok imageName) ∧
    (goContains imageName ":" = false →
      images = pre ++ e :: post →
      (∀ i ∈ pre, goContains imageName i.ID = false ∨ i.RepoTags = []) →
      goContains imageName e.ID = true →
      e.RepoTags ≠ [] →
      getFullImageName imageName (.ok images) =
        .ok ((e.RepoTags.find? (fun tag => goContains tag imageName)).getD
          (e.RepoTags.headD imageName))) ∧
    (goContains imageName ":" = false →
      (∀ i ∈ images, goContains imageName i.ID = false ∨ i.RepoTags = []) →
      getFullImageName imageName (.ok images) = .ok imageName) := by
  refine ⟨fun h l => by simp [getFullImageName, h], ?_, ?_⟩
  · intro hc himg hpre he htags
    subst himg
    simp only [getFullImageName, hc, Bool.false_eq_true, if_false]
    rw [findImageTag_skip imageName pre (e :: post) hpre]
    have hcond : (!(goContains imageName e.ID) || e.RepoTags.isEmpty) = false := by
      simp [he, htags]
    simp only [findImageTag, hcond, Bool.false_eq_true, if_false]
    cases hf : e.RepoTags.find? (fun tag => goContains tag imageName) <;>
      simp [hf]
  · intro hc hall
    simp only [getFullImageName, hc, Bool.false_eq_true, if_false]
    rw [← List.append_nil images, findImageTag_skip imageName images [] hall]
    rfl

/-- Claim C2 instance: a concrete resolution through the matching entry. -/
theorem getFullImageName_resolution_instance :
    goContains "nginx" ":" = false ∧
    goContains "nginx" "ngi" = true ∧
    (["nginx:latest"] : List String) ≠ [] ∧
    getFullImageName "nginx" (.ok [⟨"ngi", ["nginx:latest"]⟩])
        = .ok "nginx:latest" := by
  refine ⟨by decide, by decide, by decide, ?_⟩
  exact (getFullImageName_resolution "nginx" [⟨"ngi", ["nginx:latest"]⟩]
    [] [] ⟨"ngi", ["nginx:latest"]⟩).2.1 (by decide) rfl (by simp)
    (by decide) (by decide)

/-- Claim C3 counterexample: with two entries literally named
`container.json`, the scan of `restoreTar` buffers the contents of the
second (last) one — it neither stops at the first match nor ignores the
later entry, contradicting the claim's description at this input. -/
theorem restoreTar_duplicate_entry_cex :
    restoreTarPayload
        [⟨cjHeader, Json.str "first"⟩, ⟨cjHeader, Json.str "second"⟩]
      = some (Json.str "second") ∧
    some (Json.str "second") ≠ some (Json.str "first") := by
  refine ⟨rfl, by simp⟩

/-- Claim C3 (amended): `restoreTar` scans all entries to the end of the
archive; the buffer handed to the deserialiser holds the full contents of
the last entry named `container.json` (entries with other names are
ignored); if no such entry exists, deserialisation is attempted on an empty
(nil) buffer and the restore fails. -/
theorem restoreTar_buffers_last_match (entries : List TarEntry) :
    restoreTarPayload entries =
      (entries.reverse.find?
        (fun e => e.header.Name == "container.json")).map TarEntry.content ∧
    ((∀ e ∈ entries, e.header.Name ≠ "container.json") →
      restoreTarBackup entries = none) := by
  constructor
  · rw [restoreTarPayload, scanTar_eq]
    cases hf : entries.reverse.find? (fun e => e.header.Name == "container.json") <;>
      simp [hf]
  · intro h
    rw [restoreTarBackup, restoreTarPayload, scanTar_eq]
    have hnone : entries.reverse.find?
        (fun e => e.header.Name == "container.json") = none := by
      rw [List.find?_eq_none]
      intro x hx
      simp [h x (List.mem_reverse.mp hx)]
    simp [hnone]

/-- Claim C3 instance: an archive with no `container.json` entry fails. -/
theorem restoreTar_buffers_last_match_instance :
    (∀ e ∈ [TarEntry.mk ⟨"other.txt", 0, 0, 0, 0, 0⟩ Json.null],
      e.header.Name ≠ "container.json") ∧
    restoreTarBackup [TarEntry.mk ⟨"other.txt", 0, 0, 0, 0, 0⟩ Json.null]
      = none :=
  ⟨by simp, (restoreTar_buffers_last_match
      [TarEntry.mk ⟨"other.txt", 0, 0, 0, 0, 0⟩ Json.null]).2 (by simp)⟩

/-- Claim C4: for every record, filename stem and creation instant,
`backupTar` writes `<stem>.tar` holding exactly one entry; the entry is
named `container.json`, has mode 0600, records as size exactly the byte
length of the pretty-printed JSON payload, carries the creation instant as
modification, access and change time, and reading the archive back yields
the identical payload. -/
theorem backupTar_framing (filename : String) (b : Backup) (now : Nat) :
    (backupTar filename b now).1 = filename ++ ".tar" ∧
    (backupTar filename b now).2.length = 1 ∧
    (∀ e ∈ (backupTar filename b now).2,
      e.header.Name = "container.json" ∧
      e.header.Mode = 0o600 ∧
      e.header.Size = (marshalIndent b).utf8ByteSize ∧
      e.header.ModTime = now ∧
      e.header.AccessTime = now ∧
      e.header.ChangeTime = now ∧
      e.content = marshalBackup b) ∧
    restoreTarPayload (backupTar filename b now).2 = some (marshalBackup b) := by
  refine ⟨rfl, rfl, ?_, rfl⟩
  intro e he
  simp only [backupTar, List.mem_singleton] at he
  subst he
  exact ⟨rfl, rfl, rfl, rfl, rfl, rfl, rfl⟩

/-- Claim C4 instance: the single entry of a concrete archive has
mode 0600. -/
theorem backupTar_framing_instance :
    ((backupTar "stem" webBackup 7).2.headD ⟨⟨"", 0, 0, 0, 0, 0⟩, Json.null⟩)
        ∈ (backupTar "stem" webBackup 7).2 ∧
    ((backupTar "stem" webBackup 7).2.headD
        ⟨⟨"", 0, 0, 0, 0, 0⟩, Json.null⟩).header.Mode = 0o600 :=
  ⟨List.mem_cons_self _ _,
   ((backupTar_framing "stem" webBackup 7).2.2.1 _
     (List.mem_cons_self _ _)).2.1⟩

/-- Claim C5: restoring a record whose `NetworkSettings` is nil passes no
network configuration to container creation, and the concrete scenario
record `/web-1` with image `nginx`, empty host config and nil network
settings — serialised to JSON and restored — invokes creation with name
`web-1` (the last path segment) and no network configuration. -/
theorem restore_without_network_settings (b : Backup)
    (h : b.NetworkSettings = none) :
    (createContainerCall b).networkConfig = none ∧
    restoreJson (marshalBackup webBackup) = some webCall := by
  refine ⟨by simp [createContainerCall, h], ?_⟩
  rw [restoreJson, decodeBackup_marshal]
  rfl

/-- Claim C5 instance: the scenario record has nil network settings and its
creation call carries no network configuration. -/
theorem restore_without_network_settings_instance :
    webBackup.NetworkSettings = none ∧
    (createContainerCall webBackup).networkConfig = none :=
  ⟨rfl, (restore_without_network_settings webBackup rfl).1⟩

/-- Claim C6: the restore entry point dispatches paths ending in `.json` to
the JSON reader, otherwise paths ending in `.tar` to the tar reader, and for
every other path returns the unknown-file-type error (the dispatch decision
involves no file access). -/
theorem restore_extension_dispatch (path : String) :
    (goEndsWith path ".json" = true →
      restoreCmdDispatch path = .jsonFile path) ∧
    (goEndsWith path ".json" = false → goEndsWith path ".tar" = true →
      restoreCmdDispatch path = .tarFile path) ∧
    (goEndsWith path ".json" = false → goEndsWith path ".tar" = false →
      restoreCmdDispatch path = .unknownFormat) :=
  ⟨fun h => by simp [restoreCmdDispatch, h],
   fun h1 h2 => by simp [restoreCmdDispatch, h1, h2],
   fun h1 h2 => by simp [restoreCmdDispatch, h1, h2]⟩

/-- Claim C6 instance: a `.backup` path is rejected as unknown. -/
theorem restore_extension_dispatch_instance :
    goEndsWith "web.backup" ".json" = false ∧
    goEndsWith "web.backup" ".tar" = false ∧
    restoreCmdDispatch "web.backup" = .unknownFormat :=
  ⟨by decide, by decide,
   (restore_extension_dispatch "web.backup").2.2 (by decide) (by decide)⟩

/-- Claim C7: for every sanitiser, image name and container ID, the derived
artifact filename stem — the sanitised form of `"<image>-<containerID>"`
with every path separator replaced by an underscore — contains no `/`
character, whatever path-unsafe characters the inputs contain. -/
theorem backup_filename_slash_free (sanitizePath : String → String)
    (image containerID : String) :
    '/' ∉ (backupFilename sanitizePath image containerID).data :=
  replAux_no_slash (sanitizePath (image ++ "-" ++ containerID)).data 0

/-- Claim C8 counterexample: the launch template is split with
`strings.Split(ol, " ")` — on single space characters only — so a template
whose tokens are separated by a tab is kept as one token, while the claim's
splitting on whitespace would separate them. -/
theorem launch_split_whitespace_cex :
    launchArgv "notify.sh\t%tag" "app-1" = ["notify.sh\tapp-1"] ∧
    claimWhitespaceArgv (launchLine "notify.sh\t%tag" "app-1")
      = ["notify.sh", "app-1"] ∧
    (["notify.sh\tapp-1"] : List String) ≠ ["notify.sh", "app-1"] := by
  refine ⟨by decide, by decide, by decide⟩

/-- Claim C8 (amended): after a successful plain-JSON backup with a
configured launch template, the literal tokens `%tag` and `%list` are
substituted with the artifact stem and the filelist name, the result is
split on single space characters (U+0020 only; other whitespace is not a
separator and consecutive spaces yield empty arguments), the first token
names the command and the rest are its arguments, the command is executed
and waited on, and its exit status is returned as the backup's result; the
template `notify.sh %tag %list` with stem `app-1` invokes `notify.sh` with
arguments `app-1` and `app-1.backup.files`. -/
theorem launch_hook_substitution (optLaunch filename : String)
    (run : String × List String → Except String Unit)
    (h : optLaunch ≠ "") :
    backupHookResult optLaunch filename run
        = run (launchInvocation optLaunch filename) ∧
    launchInvocation "notify.sh %tag %list" "app-1"
        = ("notify.sh", ["app-1", "app-1.backup.files"]) := by
  refine ⟨?_, by decide⟩
  rw [backupHookResult, if_neg (by simpa using h)]

/-- Claim C8 instance: a non-empty template's hook result is the launched
command's result. -/
theorem launch_hook_substitution_instance :
    ("notify.sh %tag %list" : String) ≠ "" ∧
    backupHookResult "notify.sh %tag %list" "app-1" (fun _ => .ok ())
        = (fun (_ : String × List String) => Except.ok ())
            (launchInvocation "notify.sh %tag %list" "app-1") :=
  ⟨by decide,
   (launch_hook_substitution "notify.sh %tag %list" "app-1"
     (fun _ => .ok ()) (by decide)).1⟩

/-- Claim C9 counterexample: when the container listing fails, `backupAll`
panics via `panic(err)` instead of returning the error to its caller. -/
theorem backupAll_list_failure_panics_cex :
    backupAll (.error "cannot connect to the docker daemon")
        (fun _ => .ok ())
      = .panicked "cannot connect to the docker daemon" ∧
    GoOutcome.panicked "cannot connect to the docker daemon"
      ≠ .errReturn "cannot connect to the docker daemon" :=
  ⟨rfl, by decide⟩

/-- Claim C9 (amended): in backup-all mode a container-listing failure
aborts by panicking with that error (not by an ordinary error return), and
the first per-container backup failure aborts the remaining batch
immediately, surfacing that error to the caller with no local recovery,
retry, or collection of further failures. -/
theorem backupAll_error_propagation (e : String)
    (containers pre post : List String) (c : String)
    (backupOne : String → Except String Unit) :
    backupAll (.error e) backupOne = .panicked e ∧
    (containers = pre ++ c :: post →
      (∀ x ∈ pre, backupOne x = .ok ()) →
      backupOne c = .error e →
      backupAll (.ok containers) backupOne = .errReturn e) := by
  refine ⟨rfl, ?_⟩
  intro hc hpre herr
  subst hc
  show (match backupAllLoop backupOne (pre ++ c :: post) with
    | .ok _ => GoOutcome.ok
    | .error e => GoOutcome.errReturn e) = .errReturn e
  rw [backupAllLoop_append backupOne pre (c :: post) hpre]
  simp [backupAllLoop, herr]

/-- Claim C9 instance: the middle container of a batch of three fails and
its error is returned. -/
theorem backupAll_error_propagation_instance :
    (["a", "b", "c"] : List String) = ["a"] ++ "b" :: ["c"] ∧
    backupAll (.ok ["a", "b", "c"])
        (fun x => if x == "b" then .error "boom" else .ok ())
      = .errReturn "boom" :=
  ⟨rfl,
   (backupAll_error_propagation "boom" ["a", "b", "c"] ["a"] ["c"] "b"
     (fun x => if x == "b" then .error "boom" else .ok ())).2 rfl
     (by intro x hx; simp at hx; subst hx; rfl) rfl⟩

/-- Claim C10: the display slices `conf.Name[1:]` and `conf.ID[:12]` in
`backup` and `id[:12]` in `startContainer` are in range exactly when the
runtime-supplied container name is non-empty and the container ID is at
least 12 characters long; for any shorter ID or empty name the slice is out
of range (a panic — `none` here — rather than a returned error). -/
theorem display_slice_preconditions (name id : String) :
    ((backupDisplay name id).isSome = true ↔
      1 ≤ name.length ∧ 12 ≤ id.length) ∧
    ((startContainerDisplay id).isSome = true ↔ 12 ≤ id.length) := by
  constructor
  · by_cases h1 : 1 ≤ name.length <;>
      by_cases h2 : 12 ≤ id.length <;>
        simp [backupDisplay, goSliceFrom, goSliceTo, h1, h2]
  · by_cases h2 : 12 ≤ id.length <;>
      simp [startContainerDisplay, goSliceTo, h2]

/-- Claim C10 instance: a name with a leading slash and a 16-character ID
are in range; an 11-character ID is not. -/
theorem display_slice_preconditions_instance :
    (backupDisplay "/web-1" "0123456789abcdef").isSome = true ∧
    (startContainerDisplay "0123456789a").isSome = false :=
  ⟨((display_slice_preconditions "/web-1" "0123456789abcdef").1).mpr
     (by decide),
   by
     have h := ((display_slice_preconditions "" "0123456789a").2)
     by_cases hs : (startContainerDisplay "0123456789a").isSome = true
     · exact absurd (h.mp hs) (by decide)
     · simpa using hs⟩

end DockerBackup
